import Mathlib

/-!
Shallow embedding of the HCI wire-format codec of the
`snes-bluetooth-adapter` repository (crates `utils`, `macros`-derived
conversions, and `ble::hci::{packet, command, event, gap}`), together with
theorems settling the specification claims about it.

Conventions of the embedding:
* Bytes and machine integers are `Nat`; a Rust `as u8` / `to_le_bytes`
  truncation is explicit via `% 256` (inside `toLE`).
* Rust `usize` subtraction that can underflow is modelled by `wsub`, the
  wrapping subtraction modulo `2 ^ 64` that release builds perform.
* Fallible operations return `Option`; a Rust panic (out-of-bounds slice
  index, derived `From<u8>` on an unlisted discriminant, `unimplemented`)
  is modelled as `Except.error` with the panic message.
* Rust methods that mutate `&mut self` are modelled by returning the new
  state next to the result.
-/

deriving instance DecidableEq for Except

namespace Utils

/-- `utils::WriteError`. -/
inductive WriteError where
  | bufferOverflow
deriving DecidableEq

/-- `utils::Writer`: a buffer plus a cursor. -/
structure Writer where
  buf : List Nat
  pos : Nat
deriving DecidableEq

/-- `utils::Reader`: a borrowed buffer plus a cursor. -/
structure Reader where
  buf : List Nat
  pos : Nat
deriving DecidableEq

/-- Little-endian byte serialization of `v` into `width` bytes
(`to_le_bytes`); truncates like the Rust cast chain does. -/
def toLE : Nat → Nat → List Nat
  | 0, _ => []
  | width + 1, v => v % 256 :: toLE width (v / 256)

/-- Little-endian byte deserialization (`from_le_bytes`). -/
def fromLE : List Nat → Nat
  | [] => 0
  | b :: bs => b + 256 * fromLE bs

/-- `buf[pos..pos+s.length].copy_from_slice(s)` on a list. -/
def listSetRange (l : List Nat) (pos : Nat) (s : List Nat) : List Nat :=
  l.take pos ++ s ++ l.drop (pos + s.length)

/-- Wrapping `usize` subtraction (release-build semantics of `a - b`). -/
def wsub (a b : Nat) : Nat :=
  (a + (2 ^ 64 - b % 2 ^ 64)) % 2 ^ 64

/-- `Writer::new`. -/
def Writer.new (buf : List Nat) : Writer :=
  { buf := buf, pos := 0 }

/-- `Writer::write_slice`: bounds check first (the source compares with
`>=`), then copy and advance; on failure the state is returned unchanged. -/
def Writer.write_slice (w : Writer) (slice : List Nat) :
    Except WriteError Unit × Writer :=
  if w.pos + slice.length ≥ w.buf.length then
    (.error .bufferOverflow, w)
  else
    (.ok (), { buf := listSetRange w.buf w.pos slice, pos := w.pos + slice.length })

/-- `Writer::write_u8`. -/
def Writer.write_u8 (w : Writer) (value : Nat) : Except WriteError Unit × Writer :=
  w.write_slice (toLE 1 value)

/-- `Writer::write_u16`. -/
def Writer.write_u16 (w : Writer) (value : Nat) : Except WriteError Unit × Writer :=
  w.write_slice (toLE 2 value)

/-- `Writer::write_u32`. -/
def Writer.write_u32 (w : Writer) (value : Nat) : Except WriteError Unit × Writer :=
  w.write_slice (toLE 4 value)

/-- `Writer::write_u64`. -/
def Writer.write_u64 (w : Writer) (value : Nat) : Except WriteError Unit × Writer :=
  w.write_slice (toLE 8 value)

/-- `Writer::write_u128`. -/
def Writer.write_u128 (w : Writer) (value : Nat) : Except WriteError Unit × Writer :=
  w.write_slice (toLE 16 value)

/-- `Reader::new`. -/
def Reader.new (buf : List Nat) : Reader :=
  { buf := buf, pos := 0 }

/-- `Reader::remaining`: `buf.len() - pos` (never reached with
`pos > buf.len()`, see the invariant claim). -/
def Reader.remaining (r : Reader) : Nat :=
  r.buf.length - r.pos

/-- `Reader::read_slice`. -/
def Reader.read_slice (r : Reader) (len : Nat) : Option (List Nat × Reader) :=
  if r.remaining < len then
    none
  else
    some ((r.buf.drop r.pos).take len, { buf := r.buf, pos := r.pos + len })

/-- `Reader::read_u8`. -/
def Reader.read_u8 (r : Reader) : Option (Nat × Reader) :=
  (r.read_slice 1).map fun p => (fromLE p.1, p.2)

/-- `Reader::read_u16`. -/
def Reader.read_u16 (r : Reader) : Option (Nat × Reader) :=
  (r.read_slice 2).map fun p => (fromLE p.1, p.2)

/-- `Reader::read_u32`. -/
def Reader.read_u32 (r : Reader) : Option (Nat × Reader) :=
  (r.read_slice 4).map fun p => (fromLE p.1, p.2)

/-- `Reader::read_u64`. -/
def Reader.read_u64 (r : Reader) : Option (Nat × Reader) :=
  (r.read_slice 8).map fun p => (fromLE p.1, p.2)

/-- `Reader::read_u128`. -/
def Reader.read_u128 (r : Reader) : Option (Nat × Reader) :=
  (r.read_slice 16).map fun p => (fromLE p.1, p.2)

/-- `Reader::seek`: panics (`none`) when `pos` exceeds the buffer length. -/
def Reader.seek (r : Reader) (pos : Nat) : Option Reader :=
  if pos > r.buf.length then none else some { buf := r.buf, pos := pos }

/-- Auxiliary for `bytesToWords`: `r` is the number of bytes still to
consume in the current `w + 1`-byte chunk minus one, `acc` the value
accumulated so far and `mult` the positional multiplier (`mult = 1` exactly
when the current chunk is still empty). -/
def bytesToWordsAux (w : Nat) : List Nat → Nat → Nat → Nat → List Nat
  | [], _, acc, mult => if mult = 1 then [] else [acc]
  | x :: xs, 0, acc, mult => (acc + mult * x) :: bytesToWordsAux w xs w 0 1
  | x :: xs, r + 1, acc, mult => bytesToWordsAux w xs r (acc + mult * x) (mult * 256)

/-- Reinterpret consecutive chunks of `w + 1` bytes as little-endian words
(shared core of `ByteSliceAs::as_u16_slice` and friends; the targets are
little-endian, so the raw-pointer cast reads each element little-endian). -/
def bytesToWords (w : Nat) (l : List Nat) : List Nat :=
  bytesToWordsAux w l w 0 1

/-- `ByteSliceAs::as_u16_slice`. -/
def as_u16_slice (data : List Nat) : Option (List Nat) :=
  if data.length % 2 ≠ 0 then none else some (bytesToWords 1 data)

/-- `ByteSliceAs::as_u32_slice`. -/
def as_u32_slice (data : List Nat) : Option (List Nat) :=
  if data.length % 4 ≠ 0 then none else some (bytesToWords 3 data)

/-- `ByteSliceAs::as_u128_slice`. -/
def as_u128_slice (data : List Nat) : Option (List Nat) :=
  if data.length % 16 ≠ 0 then none else some (bytesToWords 15 data)

/-- Serialize each word little-endian at `width` bytes and concatenate. -/
def wordsToBytes (width : Nat) : List Nat → List Nat
  | [] => []
  | w :: ws => toLE width w ++ wordsToBytes width ws

/-- Modelled from the spec: `utils::SliceAs::as_u8_slice` is imported and
used by `gap.rs` and `command.rs` but its definition is not under `src/`;
spec section 4.4 says UUID lists write each element little-endian at its
native width (2/4/16 bytes), so the view of a word list as bytes is the
little-endian serialization of each element in order. -/
def as_u8_slice (width : Nat) (words : List Nat) : Option (List Nat) :=
  some (wordsToBytes width words)

/-- The Rust `as i8` cast of a byte. -/
def asI8 (b : Nat) : Int :=
  if b % 256 < 128 then (b % 256 : Int) else (b % 256 : Int) - 256

end Utils

open Utils

/-- The UTF-8 validity check performed by `core::str::from_utf8`. -/
def utf8Valid : List Nat → Bool
  | [] => true
  | b :: rest =>
    if b < 0x80 then utf8Valid rest
    else if b < 0xC2 then false
    else if b < 0xE0 then
      match rest with
      | c :: rest2 => if 0x80 ≤ c ∧ c < 0xC0 then utf8Valid rest2 else false
      | [] => false
    else if b < 0xF0 then
      match rest with
      | c1 :: c2 :: rest2 =>
        if (if b = 0xE0 then 0xA0 ≤ c1 ∧ c1 < 0xC0
            else if b = 0xED then 0x80 ≤ c1 ∧ c1 < 0xA0
            else 0x80 ≤ c1 ∧ c1 < 0xC0) ∧ 0x80 ≤ c2 ∧ c2 < 0xC0
        then utf8Valid rest2 else false
      | _ => false
    else if b < 0xF5 then
      match rest with
      | c1 :: c2 :: c3 :: rest2 =>
        if (if b = 0xF0 then 0x90 ≤ c1 ∧ c1 < 0xC0
            else if b = 0xF4 then 0x80 ≤ c1 ∧ c1 < 0x90
            else 0x80 ≤ c1 ∧ c1 < 0xC0) ∧
            0x80 ≤ c2 ∧ c2 < 0xC0 ∧ 0x80 ≤ c3 ∧ c3 < 0xC0
        then utf8Valid rest2 else false
      | _ => false
    else false

/-- The Rust `as u8` cast of an `i8` (two's complement low byte). -/
def i8AsU8 (v : Int) : Nat :=
  (v % 256).toNat

namespace Gap

/-- `ble::hci::gap::AdvertisingDataType` (the encode-side table; it also
lists `LEBluetoothDeviceAddress = 0x1B`). -/
inductive AdvertisingDataType where
  | flags
  | incompleteListOf16BitServiceUUIDs
  | completeListOf16BitServiceUUIDs
  | incompleteListOf32BitServiceUUIDs
  | completeListOf32BitServiceUUIDs
  | incompleteListOf128BitServiceUUIDs
  | completeListOf128BitServiceUUIDs
  | shortenedLocalName
  | completeLocalName
  | txPowerLevel
  | classOfDevice
  | peripheralConnectionIntervalRange
  | serviceData
  | appearance
  | leBluetoothDeviceAddress
  | manufacturerSpecificData
deriving DecidableEq

/-- The discriminants assigned in `gap.rs` (`X as u8` / derived `IntoU8`). -/
def AdvertisingDataType.toU8 : AdvertisingDataType → Nat
  | .flags => 0x01
  | .incompleteListOf16BitServiceUUIDs => 0x02
  | .completeListOf16BitServiceUUIDs => 0x03
  | .incompleteListOf32BitServiceUUIDs => 0x04
  | .completeListOf32BitServiceUUIDs => 0x05
  | .incompleteListOf128BitServiceUUIDs => 0x06
  | .completeListOf128BitServiceUUIDs => 0x07
  | .shortenedLocalName => 0x08
  | .completeLocalName => 0x09
  | .txPowerLevel => 0x0A
  | .classOfDevice => 0x0D
  | .peripheralConnectionIntervalRange => 0x12
  | .serviceData => 0x16
  | .appearance => 0x19
  | .leBluetoothDeviceAddress => 0x1B
  | .manufacturerSpecificData => 0xFF

/-- `ble::hci::gap::AdvertisingData` (the encode-side enum). Strings are
carried as their UTF-8 bytes, `i8` as `Int`. -/
inductive AdvertisingData where
  | flags (flags : Nat)
  | incompleteListOf16BitServiceUUIDs (uuids : List Nat)
  | completeListOf16BitServiceUUIDs (uuids : List Nat)
  | incompleteListOf32BitServiceUUIDs (uuids : List Nat)
  | completeListOf32BitServiceUUIDs (uuids : List Nat)
  | incompleteListOf128BitServiceUUIDs (uuids : List Nat)
  | completeListOf128BitServiceUUIDs (uuids : List Nat)
  | shortenedLocalName (name : List Nat)
  | completeLocalName (name : List Nat)
  | txPowerLevel (level : Int)
  | classOfDevice (class0 : Nat)
  | peripheralConnectionIntervalRange (range : List Nat)
  | serviceData (data : List Nat)
  | appearance (appearance : Nat)
  | leBluetoothDeviceAddress (address : List Nat)
  | manufacturerSpecificData (data : List Nat)
deriving DecidableEq

/-- `AdvertisingData::write_into` from `gap.rs`. Every `Writer` call result
is ignored exactly as in the source (`.2` keeps only the mutated writer);
the returned value is `Some(writer.pos)` next to the final buffer. The
type tags written in the `serviceData`, `appearance`,
`leBluetoothDeviceAddress` and `manufacturerSpecificData` arms mirror the
source, which writes `AdvertisingDataType::PeripheralConnectionIntervalRange`
in all four. -/
def AdvertisingData.write_into (d : AdvertisingData) (buf : List Nat) :
    Option (Nat × List Nat) :=
  let w := Writer.new buf
  match d with
  | .flags f =>
    let w := (w.write_u8 (2 * 1)).2
    let w := (w.write_u8 (AdvertisingDataType.toU8 .flags)).2
    let w := (w.write_u8 f).2
    some (w.pos, w.buf)
  | .incompleteListOf16BitServiceUUIDs us =>
    let w := (w.write_u8 (us.length * 2 + 1)).2
    let w := (w.write_u8 (AdvertisingDataType.toU8 .incompleteListOf16BitServiceUUIDs)).2
    match as_u8_slice 2 us with
    | none => none
    | some s =>
      let w := (w.write_slice s).2
      some (w.pos, w.buf)
  | .completeListOf16BitServiceUUIDs us =>
    let w := (w.write_u8 (us.length * 2 + 1)).2
    let w := (w.write_u8 (AdvertisingDataType.toU8 .completeListOf16BitServiceUUIDs)).2
    match as_u8_slice 2 us with
    | none => none
    | some s =>
      let w := (w.write_slice s).2
      some (w.pos, w.buf)
  | .incompleteListOf32BitServiceUUIDs us =>
    let w := (w.write_u8 (us.length * 4 + 1)).2
    let w := (w.write_u8 (AdvertisingDataType.toU8 .incompleteListOf32BitServiceUUIDs)).2
    match as_u8_slice 4 us with
    | none => none
    | some s =>
      let w := (w.write_slice s).2
      some (w.pos, w.buf)
  | .completeListOf32BitServiceUUIDs us =>
    let w := (w.write_u8 (us.length * 4 + 1)).2
    let w := (w.write_u8 (AdvertisingDataType.toU8 .completeListOf32BitServiceUUIDs)).2
    match as_u8_slice 4 us with
    | none => none
    | some s =>
      let w := (w.write_slice s).2
      some (w.pos, w.buf)
  | .incompleteListOf128BitServiceUUIDs us =>
    let w := (w.write_u8 (us.length * 16 + 1)).2
    let w := (w.write_u8 (AdvertisingDataType.toU8 .incompleteListOf128BitServiceUUIDs)).2
    match as_u8_slice 16 us with
    | none => none
    | some s =>
      let w := (w.write_slice s).2
      some (w.pos, w.buf)
  | .completeListOf128BitServiceUUIDs us =>
    let w := (w.write_u8 (us.length * 16 + 1)).2
    let w := (w.write_u8 (AdvertisingDataType.toU8 .completeListOf128BitServiceUUIDs)).2
    match as_u8_slice 16 us with
    | none => none
    | some s =>
      let w := (w.write_slice s).2
      some (w.pos, w.buf)
  | .shortenedLocalName nm =>
    let w := (w.write_u8 (nm.length + 1)).2
    let w := (w.write_u8 (AdvertisingDataType.toU8 .shortenedLocalName)).2
    let w := (w.write_slice nm).2
    some (w.pos, w.buf)
  | .completeLocalName nm =>
    let w := (w.write_u8 (nm.length + 1)).2
    let w := (w.write_u8 (AdvertisingDataType.toU8 .completeLocalName)).2
    let w := (w.write_slice nm).2
    some (w.pos, w.buf)
  | .txPowerLevel lvl =>
    let w := (w.write_u8 (1 + 1)).2
    let w := (w.write_u8 (AdvertisingDataType.toU8 .txPowerLevel)).2
    let w := (w.write_u8 (i8AsU8 lvl)).2
    some (w.pos, w.buf)
  | .classOfDevice cls =>
    let w := (w.write_u8 (4 + 1)).2
    let w := (w.write_u8 (AdvertisingDataType.toU8 .classOfDevice)).2
    let w := (w.write_u32 cls).2
    some (w.pos, w.buf)
  | .peripheralConnectionIntervalRange rg =>
    let w := (w.write_u8 (rg.length + 1)).2
    let w := (w.write_u8 (AdvertisingDataType.toU8 .peripheralConnectionIntervalRange)).2
    let w := (w.write_slice rg).2
    some (w.pos, w.buf)
  | .serviceData dt =>
    let w := (w.write_u8 (dt.length + 1)).2
    let w := (w.write_u8 (AdvertisingDataType.toU8 .peripheralConnectionIntervalRange)).2
    let w := (w.write_slice dt).2
    some (w.pos, w.buf)
  | .appearance ap =>
    let w := (w.write_u8 (2 + 1)).2
    let w := (w.write_u8 (AdvertisingDataType.toU8 .peripheralConnectionIntervalRange)).2
    let w := (w.write_u16 ap).2
    some (w.pos, w.buf)
  | .leBluetoothDeviceAddress addr =>
    let w := (w.write_u8 (addr.length + 1)).2
    let w := (w.write_u8 (AdvertisingDataType.toU8 .peripheralConnectionIntervalRange)).2
    let w := (w.write_slice addr).2
    some (w.pos, w.buf)
  | .manufacturerSpecificData dt =>
    let w := (w.write_u8 (dt.length + 1)).2
    let w := (w.write_u8 (AdvertisingDataType.toU8 .peripheralConnectionIntervalRange)).2
    let w := (w.write_slice dt).2
    some (w.pos, w.buf)

end Gap

/-- `ble::hci::packet::HCICommandPacket` (parameters is the fixed
255-byte backing array). -/
structure HCICommandPacket where
  opcode : Nat
  len : Nat
  parameters : List Nat
deriving DecidableEq

/-- `HCICommandPacket::new`: `parameters[..len].copy_from_slice(buf)`
panics (modelled as `Except.error`) when `len` exceeds the 255-byte array
or `buf` does not have length `len`. -/
def HCICommandPacket.new (opcode len : Nat) (buf : List Nat) :
    Except String HCICommandPacket :=
  if len > 255 then
    .error "range end index out of range for slice"
  else if buf.length ≠ len then
    .error "source slice length does not match destination slice length"
  else
    .ok { opcode := opcode, len := len, parameters := buf ++ List.replicate (255 - len) 0 }

/-- `ble::hci::packet::HCIEventPacket`. -/
structure HCIEventPacket where
  evcode : Nat
  len : Nat
  parameters : List Nat
deriving DecidableEq

/-- `HCIEventPacket::new`, with the same panic conditions as the command
packet constructor. -/
def HCIEventPacket.new (evcode len : Nat) (buf : List Nat) :
    Except String HCIEventPacket :=
  if len > 255 then
    .error "range end index out of range for slice"
  else if buf.length ≠ len then
    .error "source slice length does not match destination slice length"
  else
    .ok { evcode := evcode, len := len, parameters := buf ++ List.replicate (255 - len) 0 }

/-- `ble::hci::packet::HCIACLDataPacket` (data is the fixed 27-byte
backing array `HCI_ACL_DATA_MAX_DATA_LENGTH`). -/
structure HCIACLDataPacket where
  handle : Nat
  packet_boundary_flag : Nat
  broadcast_flag : Nat
  len : Nat
  data : List Nat
deriving DecidableEq

/-- `HCIACLDataPacket::new`: `data[..len].copy_from_slice(buf)` over a
`[u8; 27]` panics when `len > 27` (or on a length mismatch). -/
def HCIACLDataPacket.new (handle packet_boundary_flag broadcast_flag len : Nat)
    (buf : List Nat) : Except String HCIACLDataPacket :=
  if len > 27 then
    .error "range end index out of range for slice"
  else if buf.length ≠ len then
    .error "source slice length does not match destination slice length"
  else
    .ok { handle := handle, packet_boundary_flag := packet_boundary_flag,
          broadcast_flag := broadcast_flag, len := len,
          data := buf ++ List.replicate (27 - len) 0 }

/-- `ble::hci::packet::HCIPacket`. -/
inductive HCIPacket where
  | command (p : HCICommandPacket)
  | aclData (p : HCIACLDataPacket)
  | event (p : HCIEventPacket)
deriving DecidableEq

/-- `HCIPacket::from_buf`. `Except.ok none` is the `None` return of the
source (including the logged-and-dropped 0x03/0x05/unknown arms);
`Except.error` marks a panic inside the packet constructors. -/
def HCIPacket.from_buf (buf : List Nat) : Except String (Option HCIPacket) :=
  match (Reader.new buf).read_u8 with
  | none => .ok none
  | some (packet_type, r) =>
    if packet_type = 1 then
      match r.read_u16 with
      | none => .ok none
      | some (opcode, r) =>
        match r.read_u8 with
        | none => .ok none
        | some (len, r) =>
          match r.read_slice len with
          | none => .ok none
          | some (data, _) =>
            match HCICommandPacket.new opcode len data with
            | .error e => .error e
            | .ok p => .ok (some (.command p))
    else if packet_type = 2 then
      match r.read_u16 with
      | none => .ok none
      | some (header, r) =>
        let handle := (header &&& 0xFFF0) >>> 4
        let flags := header &&& 0x000F
        let packet_boundary_flag := (flags &&& 0b1100) >>> 2
        let broadcast_flag := flags &&& 0b0011
        match r.read_u16 with
        | none => .ok none
        | some (len, r) =>
          match r.read_slice len with
          | none => .ok none
          | some (data, _) =>
            match HCIACLDataPacket.new handle packet_boundary_flag broadcast_flag len data with
            | .error e => .error e
            | .ok p => .ok (some (.aclData p))
    else if packet_type = 3 then
      .ok none
    else if packet_type = 4 then
      match r.read_u8 with
      | none => .ok none
      | some (evcode, r) =>
        match r.read_u8 with
        | none => .ok none
        | some (len, r) =>
          match r.read_slice len with
          | none => .ok none
          | some (data, _) =>
            match HCIEventPacket.new evcode len data with
            | .error e => .error e
            | .ok p => .ok (some (.event p))
    else if packet_type = 5 then
      .ok none
    else
      .ok none

namespace Event

/-- `ble::hci::event::HCIEventCode`. -/
inductive HCIEventCode where
  | commandComplete
  | leMetaEvent
deriving DecidableEq

/-- The derived `From<u8>` for `HCIEventCode`; `none` models the panic arm
of the `FromU8` macro expansion. -/
def HCIEventCode.fromU8 (value : Nat) : Option HCIEventCode :=
  if value = 0x0E then some .commandComplete
  else if value = 0x3E then some .leMetaEvent
  else none

/-- `ble::hci::event::SubeventCode`. -/
inductive SubeventCode where
  | connectionComplete
  | advertisingReport
  | connectionUpdateComplete
  | readRemoteFeaturesPage0Complete
  | longTermKeyRequest
  | remoteConnectionParameterRequest
  | dataLengthChange
  | readLocalP256PublicKeyComplete
  | generateDHKeyComplete
  | enhancedConnectionCompleteV1
  | enhancedConnectionCompleteV2
  | directedAdvertisingReport
  | phyUpdateComplete
  | extendedAdvertisingReport
  | periodicAdvertisingSyncEstablished
  | periodicAdvertisingReport
  | periodicAdvertisingSyncLost
  | scanTimeout
  | advertisingSetTerminated
  | scanRequestReceived
  | channelSelectionAlgorithm
  | connectionlessIQReport
  | connectionIQReport
  | cteRequestFailed
  | periodicAdvertisingSyncTransferReceivedV1
  | periodicAdvertisingSyncTransferReceivedV2
  | cisEstablishedV1
  | cisEstablishedV2
  | cisRequest
  | createBIGComplete
  | terminateBIGComplete
  | bigSyncEstablished
  | bigSyncLost
  | requestPeerSCAComplete
  | pathLossThreshold
  | transmitPowerReporting
  | bigInfoAdvertisingReport
  | subrateChange
  | periodicAdvertisingSubeventDataRequest
  | periodicAdvertisingResponseReport
  | readAllRemoteFeaturesComplete
  | csReadRemoteSupportedCapabilitiesComplete
  | csReadRemoteFAETableComplete
  | csSecurityEnableComplete
  | csConfigComplete
  | csProcedureEnableComplete
  | csSubeventResult
  | csSubeventResultContinue
  | csTestEndComplete
  | monitoredAdvertisersReport
  | frameSpaceUpdateComplete
deriving DecidableEq

/-- The derived `From<u8>` for `SubeventCode` (`none` models its panic
arm), with the discriminants assigned in `event.rs`. -/
def SubeventCode.fromU8 (value : Nat) : Option SubeventCode :=
  if value = 0x01 then some .connectionComplete
  else if value = 0x02 then some .advertisingReport
  else if value = 0x03 then some .connectionUpdateComplete
  else if value = 0x04 then some .readRemoteFeaturesPage0Complete
  else if value = 0x05 then some .longTermKeyRequest
  else if value = 0x06 then some .remoteConnectionParameterRequest
  else if value = 0x07 then some .dataLengthChange
  else if value = 0x08 then some .readLocalP256PublicKeyComplete
  else if value = 0x09 then some .generateDHKeyComplete
  else if value = 0x0A then some .enhancedConnectionCompleteV1
  else if value = 0x29 then some .enhancedConnectionCompleteV2
  else if value = 0x0B then some .directedAdvertisingReport
  else if value = 0x0C then some .phyUpdateComplete
  else if value = 0x0D then some .extendedAdvertisingReport
  else if value = 0x0E then some .periodicAdvertisingSyncEstablished
  else if value = 0x0F then some .periodicAdvertisingReport
  else if value = 0x10 then some .periodicAdvertisingSyncLost
  else if value = 0x11 then some .scanTimeout
  else if value = 0x12 then some .advertisingSetTerminated
  else if value = 0x13 then some .scanRequestReceived
  else if value = 0x14 then some .channelSelectionAlgorithm
  else if value = 0x15 then some .connectionlessIQReport
  else if value = 0x16 then some .connectionIQReport
  else if value = 0x17 then some .cteRequestFailed
  else if value = 0x18 then some .periodicAdvertisingSyncTransferReceivedV1
  else if value = 0x26 then some .periodicAdvertisingSyncTransferReceivedV2
  else if value = 0x19 then some .cisEstablishedV1
  else if value = 0x2A then some .cisEstablishedV2
  else if value = 0x1A then some .cisRequest
  else if value = 0x1B then some .createBIGComplete
  else if value = 0x1C then some .terminateBIGComplete
  else if value = 0x1D then some .bigSyncEstablished
  else if value = 0x1E then some .bigSyncLost
  else if value = 0x1F then some .requestPeerSCAComplete
  else if value = 0x20 then some .pathLossThreshold
  else if value = 0x21 then some .transmitPowerReporting
  else if value = 0x22 then some .bigInfoAdvertisingReport
  else if value = 0x23 then some .subrateChange
  else if value = 0x27 then some .periodicAdvertisingSubeventDataRequest
  else if value = 0x28 then some .periodicAdvertisingResponseReport
  else if value = 0x2B then some .readAllRemoteFeaturesComplete
  else if value = 0x2C then some .csReadRemoteSupportedCapabilitiesComplete
  else if value = 0x2D then some .csReadRemoteFAETableComplete
  else if value = 0x2E then some .csSecurityEnableComplete
  else if value = 0x2F then some .csConfigComplete
  else if value = 0x30 then some .csProcedureEnableComplete
  else if value = 0x31 then some .csSubeventResult
  else if value = 0x32 then some .csSubeventResultContinue
  else if value = 0x33 then some .csTestEndComplete
  else if value = 0x34 then some .monitoredAdvertisersReport
  else if value = 0x35 then some .frameSpaceUpdateComplete
  else none

/-- `ble::hci::event::AdvertisingDataType` (the decode-side table; unlike
the `gap.rs` copy it has no `LEBluetoothDeviceAddress` entry). -/
inductive AdvertisingDataType where
  | flags
  | incompleteListOf16BitServiceUUIDs
  | completeListOf16BitServiceUUIDs
  | incompleteListOf32BitServiceUUIDs
  | completeListOf32BitServiceUUIDs
  | incompleteListOf128BitServiceUUIDs
  | completeListOf128BitServiceUUIDs
  | shortenedLocalName
  | completeLocalName
  | txPowerLevel
  | classOfDevice
  | peripheralConnectionIntervalRange
  | serviceData
  | appearance
  | manufacturerSpecificData
deriving DecidableEq

/-- The derived `From<u8>` for the decode-side `AdvertisingDataType`;
`none` models its panic arm. -/
def AdvertisingDataType.fromU8 (value : Nat) : Option AdvertisingDataType :=
  if value = 0x01 then some .flags
  else if value = 0x02 then some .incompleteListOf16BitServiceUUIDs
  else if value = 0x03 then some .completeListOf16BitServiceUUIDs
  else if value = 0x04 then some .incompleteListOf32BitServiceUUIDs
  else if value = 0x05 then some .completeListOf32BitServiceUUIDs
  else if value = 0x06 then some .incompleteListOf128BitServiceUUIDs
  else if value = 0x07 then some .completeListOf128BitServiceUUIDs
  else if value = 0x08 then some .shortenedLocalName
  else if value = 0x09 then some .completeLocalName
  else if value = 0x0A then some .txPowerLevel
  else if value = 0x0D then some .classOfDevice
  else if value = 0x12 then some .peripheralConnectionIntervalRange
  else if value = 0x16 then some .serviceData
  else if value = 0x19 then some .appearance
  else if value = 0xFF then some .manufacturerSpecificData
  else none

/-- `ble::hci::event::AdvertisingData` (the decode-side enum; strings are
carried as their UTF-8 bytes, `i8` as `Int`). -/
inductive AdvertisingData where
  | flags (flags : Nat)
  | incompleteListOf16BitServiceUUIDs (uuids : List Nat)
  | completeListOf16BitServiceUUIDs (uuids : List Nat)
  | incompleteListOf32BitServiceUUIDs (uuids : List Nat)
  | completeListOf32BitServiceUUIDs (uuids : List Nat)
  | incompleteListOf128BitServiceUUIDs (uuids : List Nat)
  | completeListOf128BitServiceUUIDs (uuids : List Nat)
  | shortenedLocalName (name : List Nat)
  | completeLocalName (name : List Nat)
  | txPowerLevel (level : Int)
  | classOfDevice (class0 : Nat)
  | peripheralConnectionIntervalRange (range : List Nat)
  | serviceData (data : List Nat)
  | appearance (appearance : Nat)
  | manufacturerSpecificData (data : List Nat)
deriving DecidableEq

/-- `ble::hci::event::AdvertisingDataIterator`. -/
structure AdvertisingDataIterator where
  reader : Reader
deriving DecidableEq

/-- `Iterator::next` for `AdvertisingDataIterator`. `Except.ok none` is the
iterator's `None` (end of input or a failed fallible step), while
`Except.error` models the two possible panics: the derived `From<u8>` on an
unknown AD-type tag, and the `data[0]` index in the `Flags` arm when the
record payload is empty. The `len as usize - size_of::<u8>()` subtraction
is the wrapping `usize` subtraction `wsub len 1`. -/
def AdvertisingDataIterator.next (it : AdvertisingDataIterator) :
    Except String (Option (AdvertisingData × AdvertisingDataIterator)) :=
  if it.reader.remaining = 0 then .ok none
  else
    match it.reader.read_u8 with
    | none => .ok none
    | some (len, r1) =>
      match r1.read_u8 with
      | none => .ok none
      | some (tag, r2) =>
        match AdvertisingDataType.fromU8 tag with
        | none => .error "Invalid value for AdvertisingDataType"
        | some ad_type =>
          match r2.read_slice (wsub len 1) with
          | none => .ok none
          | some (data, r3) =>
            let reader := Reader.new data
            match ad_type with
            | .flags =>
              match data with
              | [] => .error "index out of bounds"
              | d0 :: _ => .ok (some (.flags d0, { reader := r3 }))
            | .incompleteListOf16BitServiceUUIDs =>
              match as_u16_slice data with
              | none => .ok none
              | some l => .ok (some (.incompleteListOf16BitServiceUUIDs l, { reader := r3 }))
            | .completeListOf16BitServiceUUIDs =>
              match as_u16_slice data with
              | none => .ok none
              | some l => .ok (some (.completeListOf16BitServiceUUIDs l, { reader := r3 }))
            | .incompleteListOf32BitServiceUUIDs =>
              match as_u32_slice data with
              | none => .ok none
              | some l => .ok (some (.incompleteListOf32BitServiceUUIDs l, { reader := r3 }))
            | .completeListOf32BitServiceUUIDs =>
              match as_u32_slice data with
              | none => .ok none
              | some l => .ok (some (.completeListOf32BitServiceUUIDs l, { reader := r3 }))
            | .incompleteListOf128BitServiceUUIDs =>
              match as_u128_slice data with
              | none => .ok none
              | some l => .ok (some (.incompleteListOf128BitServiceUUIDs l, { reader := r3 }))
            | .completeListOf128BitServiceUUIDs =>
              match as_u128_slice data with
              | none => .ok none
              | some l => .ok (some (.completeListOf128BitServiceUUIDs l, { reader := r3 }))
            | .shortenedLocalName =>
              if utf8Valid data then .ok (some (.shortenedLocalName data, { reader := r3 }))
              else .ok none
            | .completeLocalName =>
              if utf8Valid data then .ok (some (.completeLocalName data, { reader := r3 }))
              else .ok none
            | .txPowerLevel =>
              match reader.read_u8 with
              | none => .ok none
              | some (b, _) => .ok (some (.txPowerLevel (asI8 b), { reader := r3 }))
            | .classOfDevice =>
              match reader.read_u32 with
              | none => .ok none
              | some (v, _) => .ok (some (.classOfDevice v, { reader := r3 }))
            | .peripheralConnectionIntervalRange =>
              .ok (some (.peripheralConnectionIntervalRange data, { reader := r3 }))
            | .serviceData =>
              .ok (some (.serviceData data, { reader := r3 }))
            | .appearance =>
              match reader.read_u16 with
              | none => .ok none
              | some (v, _) => .ok (some (.appearance v, { reader := r3 }))
            | .manufacturerSpecificData =>
              .ok (some (.manufacturerSpecificData data, { reader := r3 }))

/-- `ble::hci::event::AdvertisingReport`. -/
structure AdvertisingReport where
  event_type : Nat
  address_type : Nat
  address : List Nat
  data : AdvertisingDataIterator
  rssi : Int
deriving DecidableEq

/-- `ble::hci::event::AdvertisingReportIterator`. -/
structure AdvertisingReportIterator where
  num_reports : Nat
  reader : Reader
deriving DecidableEq

/-- The body of `Iterator::next` for `AdvertisingReportIterator` over the
borrowed reader: each `Option.elim` is one `?`-propagating read of the
source (event type, address type, 6-byte address, AD length, AD bytes,
RSSI); a failing read yields `none` together with the reader as the
preceding reads left it, a successful pass yields the report and the
advanced reader. -/
def AdvertisingReportIterator.nextAux (r : Reader) : Option AdvertisingReport × Reader :=
  (r.read_u8).elim (none, r) fun et_r1 =>
    (et_r1.2.read_u8).elim (none, et_r1.2) fun at_r2 =>
      (at_r2.2.read_slice 6).elim (none, at_r2.2) fun addr_r3 =>
        (addr_r3.2.read_u8).elim (none, addr_r3.2) fun len_r4 =>
          (len_r4.2.read_slice len_r4.1).elim (none, len_r4.2) fun ad_r5 =>
            (ad_r5.2.read_u8).elim (none, ad_r5.2) fun rssi_r6 =>
              (some { event_type := et_r1.1, address_type := at_r2.1,
                      address := addr_r3.1, data := { reader := Reader.new ad_r5.1 },
                      rssi := asI8 rssi_r6.1 },
               rssi_r6.2)

/-- `Iterator::next` for `AdvertisingReportIterator`: the result is paired
with the iterator afterwards, so that the cursor mutation of each
successful read is kept even when a later read fails. -/
def AdvertisingReportIterator.next (it : AdvertisingReportIterator) :
    Option AdvertisingReport × AdvertisingReportIterator :=
  if it.reader.remaining = 0 then (none, it)
  else
    let p := AdvertisingReportIterator.nextAux it.reader
    (p.1, { it with reader := p.2 })

/-- `ble::hci::event::CommandCompleteEvent`. -/
structure CommandCompleteEvent where
  num_hci_command_packets : Nat
  command_opcode : Nat
  return_parameters : List Nat
deriving DecidableEq

/-- `ble::hci::event::LEMetaEvent`. -/
inductive LEMetaEvent where
  | advertisingReport (it : AdvertisingReportIterator)
  | readAllRemoteFeaturesComplete (data : List Nat)
deriving DecidableEq

/-- `ble::hci::event::HCIEvent`. -/
inductive HCIEvent where
  | commandComplete (e : CommandCompleteEvent)
  | leMetaEvent (e : LEMetaEvent)
deriving DecidableEq

/-- The `HCIEventCode::CommandComplete` arm of `HCIEvent::from_packet`,
factored into its own definition (`r` is the reader over the parameter
array, `plen` the declared parameter length of the packet). The chain of
`Option.bind` is the `?` operator on each fallible read;
`packet.len - reader.pos` is the wrapping `usize` subtraction `wsub`. -/
def HCIEvent.commandCompleteArm (r : Reader) (plen : Nat) :
    Except String (Option HCIEvent) :=
  .ok <| r.read_u8.bind fun num_r1 =>
    num_r1.2.read_u16.bind fun opcode_r2 =>
      (opcode_r2.2.read_slice (wsub plen opcode_r2.2.pos)).map fun params_r3 =>
        .commandComplete
          { num_hci_command_packets := num_r1.1, command_opcode := opcode_r2.1,
            return_parameters := params_r3.1 }

/-- The `HCIEventCode::LEMetaEvent` arm of `HCIEvent::from_packet`,
factored into its own definition. `Except.error` models the panics: the
derived `From<u8>` of the sub-event code and the `unimplemented` arm for
sub-events other than `AdvertisingReport`. -/
def HCIEvent.leMetaEventArm (r : Reader) (plen : Nat) :
    Except String (Option HCIEvent) :=
  match r.read_u8 with
  | none => .ok none
  | some (sub, r1) =>
    match SubeventCode.fromU8 sub with
    | none => .error "Invalid value for SubeventCode"
    | some .advertisingReport =>
      match r1.read_u8 with
      | none => .ok none
      | some (n, r2) =>
        match r2.read_slice (wsub plen r2.pos) with
        | none => .ok none
        | some (data, _) =>
          .ok (some (.leMetaEvent (.advertisingReport
            { num_reports := n, reader := Reader.new data })))
    | some _ => .error "not implemented"

/-- `HCIEvent::from_packet`. The reader runs over the full 255-byte
parameter array; the derived `From<u8>` of the event code panics
(`Except.error`) on codes other than 0x0E and 0x3E. -/
def HCIEvent.from_packet (packet : HCIEventPacket) : Except String (Option HCIEvent) :=
  let r := Reader.new packet.parameters
  match HCIEventCode.fromU8 packet.evcode with
  | none => .error "Invalid value for HCIEventCode"
  | some .commandComplete => HCIEvent.commandCompleteArm r packet.len
  | some .leMetaEvent => HCIEvent.leMetaEventArm r packet.len

end Event

/-- `HCI_COMMAND_PACKET_TYPE` from `packet.rs`. -/
def HCI_COMMAND_PACKET_TYPE : Nat := 0x01

/-- `OGF_CONTROL_AND_BASEBAND_COMMAND` from `command.rs`. -/
def OGF_CONTROL_AND_BASEBAND_COMMAND : Nat := 0x03

/-- `OGF_LE_CONTROLLER_COMMAND` from `command.rs`. -/
def OGF_LE_CONTROLLER_COMMAND : Nat := 0x08

/-- `OCF_RESET` from `command.rs`. -/
def OCF_RESET : Nat := 0x3

/-- `OCF_SET_ADVERTISING_PARAMETERS` from `command.rs`. -/
def OCF_SET_ADVERTISING_PARAMETERS : Nat := 0x06

/-- `OCF_SET_ADVERTISING_DATA` from `command.rs`. -/
def OCF_SET_ADVERTISING_DATA : Nat := 0x08

/-- `OCF_SET_RESPONSE_DATA` from `command.rs`. -/
def OCF_SET_RESPONSE_DATA : Nat := 0x9

/-- `OCF_SET_ADVERTISING_ENABLE` from `command.rs`. -/
def OCF_SET_ADVERTISING_ENABLE : Nat := 0x0A

/-- `OCF_SET_SCAN_PARAMETERS` from `command.rs`. -/
def OCF_SET_SCAN_PARAMETERS : Nat := 0x0B

/-- `OCF_SET_SCAN_ENABLE` from `command.rs`. -/
def OCF_SET_SCAN_ENABLE : Nat := 0x0C

/-- `const fn opcode(ocf, ogf) = ocf | ogf << 10` from `command.rs`. -/
def opcode (ocf ogf : Nat) : Nat :=
  ocf ||| (ogf <<< 10)

/-- `ble::hci::command::SetAdvertisingParametersCommand`. -/
structure SetAdvertisingParametersCommand where
  interval_min : Nat
  interval_max : Nat
  advertising_type : Nat
  own_address_type : Nat
  peer_address_type : Nat
  peer_address : List Nat
  advertising_channel_map : Nat
  advertising_filter_policy : Nat
deriving DecidableEq

/-- The derived `Size` for `SetAdvertisingParametersCommand`: the sum of
the declared field widths (`u16, u16, u8, u8, u8, [u8; 6], u8, u8`). -/
def SetAdvertisingParametersCommand.size (_ : SetAdvertisingParametersCommand) : Nat :=
  0 + 2 + 2 + 1 + 1 + 1 + 6 + 1 + 1

/-- `ble::hci::command::SetScanParametersCommand`. -/
structure SetScanParametersCommand where
  scan_type : Nat
  scan_interval : Nat
  scan_window : Nat
  own_address_type : Nat
  scanning_filter_policy : Nat
deriving DecidableEq

/-- The derived `Size` for `SetScanParametersCommand`
(`u8, u16, u16, u8, u8`). -/
def SetScanParametersCommand.size (_ : SetScanParametersCommand) : Nat :=
  0 + 1 + 2 + 2 + 1 + 1

/-- `ble::hci::command::ScanEnableCommand`. -/
structure ScanEnableCommand where
  scan_enable : Nat
  filter_duplicates : Nat
deriving DecidableEq

/-- The derived `Size` for `ScanEnableCommand` (`u8, u8`). -/
def ScanEnableCommand.size (_ : ScanEnableCommand) : Nat :=
  0 + 1 + 1

/-- `ble::hci::command::HCICommand`. -/
inductive HCICommand where
  | reset
  | setAdvertisingParameters (command : SetAdvertisingParametersCommand)
  | setAdvertisingData (data : List Gap.AdvertisingData)
  | setScanResponseData (data : List Gap.AdvertisingData)
  | setAdvertisingEnable (enable : Nat)
  | setScanParameters (command : SetScanParametersCommand)
  | scanEnable (command : ScanEnableCommand)
deriving DecidableEq

/-- The `for data in data.iter()` loop of the `SetAdvertisingData` and
`SetScanResponseData` arms: each element is encoded into
`&mut data_buf[offset..]` and `offset` advances by the returned length. -/
def fillAdvertisingData : List Gap.AdvertisingData → List Nat → Nat → Option (List Nat × Nat)
  | [], data_buf, offset => some (data_buf, offset)
  | d :: ds, data_buf, offset =>
    match d.write_into (data_buf.drop offset) with
    | none => none
    | some (len, newSub) =>
      fillAdvertisingData ds (data_buf.take offset ++ newSub) (offset + len)

/-- `HCICommand::write_into` from `command.rs`. Every `Writer` call result
is ignored exactly as in the source; the returned value is
`Some(writer.pos)` next to the final buffer. -/
def HCICommand.write_into (self : HCICommand) (buf : List Nat) : Option (Nat × List Nat) :=
  let w := Writer.new buf
  let w := (w.write_u8 HCI_COMMAND_PACKET_TYPE).2
  match self with
  | .reset =>
    let w := (w.write_u16 (opcode OCF_RESET OGF_CONTROL_AND_BASEBAND_COMMAND)).2
    let w := (w.write_u8 0).2
    some (w.pos, w.buf)
  | .setAdvertisingParameters command =>
    let w := (w.write_u16 (opcode OCF_SET_ADVERTISING_PARAMETERS OGF_LE_CONTROLLER_COMMAND)).2
    let w := (w.write_u8 command.size).2
    let w := (w.write_u16 command.interval_min).2
    let w := (w.write_u16 command.interval_max).2
    let w := (w.write_u8 command.advertising_type).2
    let w := (w.write_u8 command.own_address_type).2
    let w := (w.write_u8 command.peer_address_type).2
    let w := (w.write_slice command.peer_address).2
    let w := (w.write_u8 command.advertising_channel_map).2
    let w := (w.write_u8 command.advertising_filter_policy).2
    some (w.pos, w.buf)
  | .scanEnable command =>
    let w := (w.write_u16 (opcode OCF_SET_SCAN_ENABLE OGF_LE_CONTROLLER_COMMAND)).2
    let w := (w.write_u8 command.size).2
    let w := (w.write_u8 command.scan_enable).2
    let w := (w.write_u8 command.filter_duplicates).2
    some (w.pos, w.buf)
  | .setScanParameters command =>
    let w := (w.write_u16 (opcode OCF_SET_SCAN_PARAMETERS OGF_LE_CONTROLLER_COMMAND)).2
    let w := (w.write_u8 command.size).2
    let w := (w.write_u8 command.scan_type).2
    let w := (w.write_u16 command.scan_interval).2
    let w := (w.write_u16 command.scan_window).2
    let w := (w.write_u8 command.own_address_type).2
    let w := (w.write_u8 command.scanning_filter_policy).2
    some (w.pos, w.buf)
  | .setAdvertisingData data =>
    let w := (w.write_u16 (opcode OCF_SET_ADVERTISING_DATA OGF_LE_CONTROLLER_COMMAND)).2
    let w := (w.write_u8 32).2
    match fillAdvertisingData data (List.replicate 31 0) 0 with
    | none => none
    | some (data_buf, offset) =>
      let w := (w.write_u8 offset).2
      let w := (w.write_slice data_buf).2
      some (w.pos, w.buf)
  | .setScanResponseData data =>
    let w := (w.write_u16 (opcode OCF_SET_RESPONSE_DATA OGF_LE_CONTROLLER_COMMAND)).2
    let w := (w.write_u8 32).2
    match fillAdvertisingData data (List.replicate 31 0) 0 with
    | none => none
    | some (data_buf, offset) =>
      let w := (w.write_u8 offset).2
      let w := (w.write_slice data_buf).2
      some (w.pos, w.buf)
  | .setAdvertisingEnable enable =>
    let w := (w.write_u16 (opcode OCF_SET_ADVERTISING_ENABLE OGF_LE_CONTROLLER_COMMAND)).2
    let w := (w.write_u8 1).2
    let w := (w.write_u8 enable).2
    some (w.pos, w.buf)

/-- A well-formed advertising report record as the event decoder expects
it on the wire: 1-byte event type, 1-byte address type, 6-byte address,
1-byte AD length, the AD bytes, 1-byte RSSI. -/
structure RawAdvReport where
  event_type : Nat
  address_type : Nat
  address : List Nat
  ad : List Nat
  rssi : Nat
deriving DecidableEq

/-- The wire encoding of a `RawAdvReport`. -/
def RawAdvReport.encode (r : RawAdvReport) : List Nat :=
  [r.event_type, r.address_type] ++ r.address ++ [r.ad.length] ++ r.ad ++ [r.rssi]

/-- Well-formedness of a `RawAdvReport`: the address is 6 bytes and the AD
payload length fits the 1-byte length field. -/
def RawAdvReport.wf (r : RawAdvReport) : Prop :=
  r.address.length = 6 ∧ r.ad.length < 256

/-- Concatenation of the wire encodings of a record list. -/
def encodeReports : List RawAdvReport → List Nat
  | [] => []
  | r :: rs => r.encode ++ encodeReports rs

/-- Pull up to `n` elements out of an `AdvertisingReportIterator`,
returning them with the iterator state afterwards. -/
def takeReports :
    Nat → Event.AdvertisingReportIterator →
    List Event.AdvertisingReport × Event.AdvertisingReportIterator
  | 0, it => ([], it)
  | n + 1, it =>
    match it.next with
    | (none, it1) => ([], it1)
    | (some rep, it1) =>
      let p := takeReports n it1
      (rep :: p.1, p.2)

/-- `r.wf` is decidable (used to check concrete records). -/
instance RawAdvReport.instDecidableWf (r : RawAdvReport) : Decidable r.wf :=
  inferInstanceAs (Decidable (r.address.length = 6 ∧ r.ad.length < 256))

/-- The decoded report that a well-formed `RawAdvReport` should produce,
one per record. -/
def expectedReports : List RawAdvReport → List Event.AdvertisingReport
  | [] => []
  | r :: rs =>
    { event_type := r.event_type, address_type := r.address_type, address := r.address,
      data := { reader := Reader.new r.ad }, rssi := asI8 r.rssi } :: expectedReports rs

/-- Helper: a `width`-byte little-endian serialization has length `width`. -/
theorem toLE_length (width : Nat) : ∀ v, (toLE width v).length = width := by
  induction width with
  | zero => intro v; rfl
  | succ n ih => intro v; simp [toLE, ih]

/-- Helper: `write_slice` fails exactly when `pos + slice.length` reaches
the buffer length, and on failure returns the writer unchanged. -/
theorem write_slice_cases (w : Writer) (s : List Nat) :
    (w.write_slice s = (.error .bufferOverflow, w) ∧ w.pos + s.length ≥ w.buf.length) ∨
    (w.write_slice s =
      (.ok (), { buf := listSetRange w.buf w.pos s, pos := w.pos + s.length }) ∧
      w.pos + s.length < w.buf.length) := by
  by_cases h : w.pos + s.length ≥ w.buf.length
  · exact Or.inl ⟨by simp [Writer.write_slice, h], h⟩
  · exact Or.inr ⟨by simp [Writer.write_slice, h], by omega⟩

/-- C1: the claim asserts `decode(encode(x)) = x` for every
`AdvertisingData` variant, and that the encoder writes the assigned tag of
each variant (ServiceData = 0x16, Appearance = 0x19, DeviceAddress = 0x1B,
ManufacturerData = 0xFF). This evaluation shows the code violating it:
encoding zero-length manufacturer data emits tag 0x12 (the
PeripheralConnectionIntervalRange tag), so decoding the encoding returns
the `peripheralConnectionIntervalRange` variant instead; the same
copy-pasted tag is emitted for `serviceData`, whose assigned tag in the
very same enum is 0x16. -/
theorem gap_encode_tag_mismatch :
    Gap.AdvertisingData.write_into (.manufacturerSpecificData []) [0, 0, 0] =
      some (2, [0x01, 0x12, 0]) ∧
    Event.AdvertisingDataIterator.next { reader := { buf := [0x01, 0x12], pos := 0 } } =
      .ok (some (.peripheralConnectionIntervalRange [],
        { reader := { buf := [0x01, 0x12], pos := 2 } })) ∧
    Gap.AdvertisingDataType.toU8 .manufacturerSpecificData = 0xFF ∧
    Gap.AdvertisingData.write_into (.serviceData [7]) [0, 0, 0, 0] =
      some (3, [0x02, 0x12, 7, 0]) ∧
    Gap.AdvertisingDataType.toU8 .serviceData = 0x16 := by
  decide

set_option maxRecDepth 8000 in
/-- C2: the claim says `HCIPacket::from_buf` never panics, in particular on
the ACL-Data path for every declared 16-bit length whose bytes are present.
This evaluation shows the code violating it: an ACL packet declaring 28
data bytes (all present) drives `HCIACLDataPacket::new` into the
out-of-bounds slice `data[..28]` of its fixed `[u8; 27]` array, a panic. -/
theorem from_buf_acl_overlong_panics :
    HCIPacket.from_buf ([0x02, 0x00, 0x00, 28, 0x00] ++ List.replicate 28 0) =
      .error "range end index out of range for slice" := by
  decide

/-- C3 counterexample: the claim says a write that exactly fills the
remaining capacity (`pos + n = capacity`) succeeds; writing one byte into
an empty one-byte writer (`pos = 0`, `n = 1`, capacity `1`) nevertheless
returns `BufferOverflow`, because the source checks with `>=`. -/
theorem write_slice_exact_fill_overflows :
    (Writer.write_slice { buf := [0], pos := 0 } [5]).1 = .error .bufferOverflow ∧
    (0 : Nat) + [5].length = [0].length := by
  decide

/-- C3 (amended): `write_slice` (and hence every `write_<width>`) fails
with `BufferOverflow` exactly when `pos + n` reaches *or equals* the
capacity: an exactly-filling write fails, and a write is accepted only
when at least one byte of slack remains. -/
theorem write_error_iff_ge_capacity (w : Writer) (s : List Nat) (v : Nat) :
    ((w.write_slice s).1 = .error .bufferOverflow ↔ w.buf.length ≤ w.pos + s.length) ∧
    ((w.write_u8 v).1 = .error .bufferOverflow ↔ w.buf.length ≤ w.pos + 1) ∧
    ((w.write_u16 v).1 = .error .bufferOverflow ↔ w.buf.length ≤ w.pos + 2) ∧
    ((w.write_u32 v).1 = .error .bufferOverflow ↔ w.buf.length ≤ w.pos + 4) ∧
    ((w.write_u64 v).1 = .error .bufferOverflow ↔ w.buf.length ≤ w.pos + 8) ∧
    ((w.write_u128 v).1 = .error .bufferOverflow ↔ w.buf.length ≤ w.pos + 16) := by
  have base : ∀ s : List Nat,
      (w.write_slice s).1 = .error .bufferOverflow ↔ w.buf.length ≤ w.pos + s.length := by
    intro s
    rcases write_slice_cases w s with ⟨h, hc⟩ | ⟨h, hc⟩ <;> simp [h] <;> omega
  refine ⟨base s, ?_, ?_, ?_, ?_, ?_⟩ <;>
    simpa [Writer.write_u8, Writer.write_u16, Writer.write_u32, Writer.write_u64,
      Writer.write_u128, toLE_length] using base _

/-- C4: the claim says an unknown AD-type tag yields an inspectable
"unknown AD type" failure value. This evaluation shows the code violating
it: the derived `From<u8>` conversion has no arm for tag 0x0B and panics
(terminating the process) instead of returning a value. -/
theorem adv_data_unknown_tag_panics :
    Event.AdvertisingDataIterator.next { reader := { buf := [0x02, 0x0B, 0x00], pos := 0 } } =
      .error "Invalid value for AdvertisingDataType" ∧
    Event.AdvertisingDataType.fromU8 0x0B = none := by
  decide

/-- C7 counterexample: the claim says unsupported (0x03/0x05) and unknown
leading bytes produce two distinct conditions, the latter carrying the
offending byte. In the code all of them (and truncation) return the very
same valueless `None`, so no two of these outcomes are distinguishable and
no byte is carried. -/
theorem from_buf_failures_collapse :
    HCIPacket.from_buf [0x03] = .ok none ∧
    HCIPacket.from_buf [0x05] = .ok none ∧
    HCIPacket.from_buf [0x00] = .ok none ∧
    HCIPacket.from_buf [0x06] = .ok none ∧
    HCIPacket.from_buf [] = .ok none := by
  decide

/-- C7 (amended): for every leading byte that is 0x03, 0x05 or outside
0x01..0x05, `from_buf` returns the same indistinguishable no-value result
(the variants differ only in the log line, which the caller cannot
inspect). -/
theorem from_buf_unsupported_unknown_none (b : Nat) (rest : List Nat)
    (h : b = 0x03 ∨ b = 0x05 ∨ b = 0 ∨ 6 ≤ b) :
    HCIPacket.from_buf (b :: rest) = .ok none := by
  have hread : (Reader.new (b :: rest)).read_u8 =
      some (b, { buf := b :: rest, pos := 1 }) := by
    simp [Reader.new, Reader.read_u8, Reader.read_slice, Reader.remaining, fromLE]
  unfold HCIPacket.from_buf
  rw [hread]
  rcases h with rfl | rfl | rfl | h6
  · norm_num
  · norm_num
  · norm_num
  · have h1 : b ≠ 1 := by omega
    have h2 : b ≠ 2 := by omega
    have h3 : b ≠ 3 := by omega
    have h4 : b ≠ 4 := by omega
    have h5 : b ≠ 5 := by omega
    simp [h1, h2, h3, h4, h5]

/-- C7 witness: a concrete unknown leading byte. -/
theorem from_buf_unsupported_unknown_none_witness :
    HCIPacket.from_buf [0x06, 1, 2] = .ok none :=
  from_buf_unsupported_unknown_none 6 [1, 2] (by decide)

/-- C8: a `write_slice` (or `write_<width>`) call that fails with
`BufferOverflow` mutates nothing: the buffer and the cursor after the
failed call equal those before it. -/
theorem write_fail_frame (w : Writer) (s : List Nat) (v : Nat) :
    ((w.write_slice s).1 = .error .bufferOverflow → (w.write_slice s).2 = w) ∧
    ((w.write_u8 v).1 = .error .bufferOverflow → (w.write_u8 v).2 = w) ∧
    ((w.write_u16 v).1 = .error .bufferOverflow → (w.write_u16 v).2 = w) ∧
    ((w.write_u32 v).1 = .error .bufferOverflow → (w.write_u32 v).2 = w) ∧
    ((w.write_u64 v).1 = .error .bufferOverflow → (w.write_u64 v).2 = w) ∧
    ((w.write_u128 v).1 = .error .bufferOverflow → (w.write_u128 v).2 = w) := by
  have base : ∀ s : List Nat,
      (w.write_slice s).1 = .error .bufferOverflow → (w.write_slice s).2 = w := by
    intro s
    rcases write_slice_cases w s with ⟨h, _⟩ | ⟨h, _⟩ <;> simp [h]
  exact ⟨base s, base _, base _, base _, base _, base _⟩

/-- C8 witness: a failing one-byte write into a full writer leaves the
buffer and cursor untouched, for the slice form and every scalar width. -/
theorem write_fail_frame_witness :
    (Writer.write_slice { buf := [0], pos := 0 } [5]).2 = { buf := [0], pos := 0 } ∧
    (Writer.write_u8 { buf := [0], pos := 0 } 7).2 = { buf := [0], pos := 0 } ∧
    (Writer.write_u16 { buf := [0], pos := 0 } 7).2 = { buf := [0], pos := 0 } ∧
    (Writer.write_u32 { buf := [0], pos := 0 } 7).2 = { buf := [0], pos := 0 } ∧
    (Writer.write_u64 { buf := [0], pos := 0 } 7).2 = { buf := [0], pos := 0 } ∧
    (Writer.write_u128 { buf := [0], pos := 0 } 7).2 = { buf := [0], pos := 0 } :=
  ⟨(write_fail_frame { buf := [0], pos := 0 } [5] 7).1 (by decide),
   (write_fail_frame { buf := [0], pos := 0 } [5] 7).2.1 (by decide),
   (write_fail_frame { buf := [0], pos := 0 } [5] 7).2.2.1 (by decide),
   (write_fail_frame { buf := [0], pos := 0 } [5] 7).2.2.2.1 (by decide),
   (write_fail_frame { buf := [0], pos := 0 } [5] 7).2.2.2.2.1 (by decide),
   (write_fail_frame { buf := [0], pos := 0 } [5] 7).2.2.2.2.2 (by decide)⟩

/-- Helper: a successful `read_slice` with the bound in hand. -/
theorem read_slice_ok (r : Reader) (n : Nat) (h : r.pos + n ≤ r.buf.length) :
    r.read_slice n =
      some ((r.buf.drop r.pos).take n, { buf := r.buf, pos := r.pos + n }) := by
  unfold Reader.read_slice
  rw [if_neg]
  unfold Reader.remaining
  omega

/-- Helper: `read_u8` positioned at the head of the unread suffix. -/
theorem read_u8_cons (pre rest : List Nat) (b : Nat) :
    Reader.read_u8 { buf := pre ++ b :: rest, pos := pre.length } =
      some (b, { buf := pre ++ b :: rest, pos := pre.length + 1 }) := by
  have h := read_slice_ok { buf := pre ++ b :: rest, pos := pre.length } 1 (by simp)
  simp only [Reader.read_u8, h, Option.map_some']
  simp [fromLE, List.drop_append_of_le_length, List.drop_left]

/-- Helper: `read_u16` positioned at the head of the unread suffix. -/
theorem read_u16_cons (pre rest : List Nat) (b0 b1 : Nat) :
    Reader.read_u16 { buf := pre ++ b0 :: b1 :: rest, pos := pre.length } =
      some (b0 + 256 * b1, { buf := pre ++ b0 :: b1 :: rest, pos := pre.length + 2 }) := by
  have h := read_slice_ok { buf := pre ++ b0 :: b1 :: rest, pos := pre.length } 2
    (by simp)
  simp only [Reader.read_u16, h, Option.map_some']
  simp [fromLE, List.drop_left]

/-- Helper: `read_slice` of exactly the next `mid.length` bytes. -/
theorem read_slice_pre (pre mid tail : List Nat) (n : Nat) (hn : mid.length = n) :
    Reader.read_slice { buf := pre ++ (mid ++ tail), pos := pre.length } n =
      some (mid, { buf := pre ++ (mid ++ tail), pos := pre.length + n }) := by
  subst hn
  have h := read_slice_ok { buf := pre ++ (mid ++ tail), pos := pre.length } mid.length
    (by simp)
  simpa [List.drop_left, List.take_left] using h

/-- Helper: `wsub` is plain subtraction when no underflow occurs. -/
theorem wsub_of_le (a b : Nat) (hb : b ≤ a) (ha : a < 18446744073709551616) :
    wsub a b = a - b := by
  have hp : (2 : Nat) ^ 64 = 18446744073709551616 := by norm_num
  unfold wsub
  rw [hp]
  omega

/-- Helper: `wsub` wraps around on underflow. -/
theorem wsub_of_gt (a b : Nat) (h : a < b) (hb : b < 18446744073709551616) :
    wsub a b = 18446744073709551616 + a - b := by
  have hp : (2 : Nat) ^ 64 = 18446744073709551616 := by norm_num
  unfold wsub
  rw [hp]
  omega

/-- C10: `pos ≤ buf.length` holds of a fresh `Reader` and is preserved by
every operation that returns normally (`read_slice`, each `read_<width>`,
`seek`), and under it `remaining` is exact: `pos + remaining = buf.length`,
so the subtraction inside `remaining` never underflows. -/
theorem reader_pos_invariant :
    (∀ buf : List Nat, (Reader.new buf).pos ≤ (Reader.new buf).buf.length) ∧
    (∀ (r r2 : Reader) (len : Nat) (s : List Nat),
      r.read_slice len = some (s, r2) → r.pos ≤ r.buf.length → r2.pos ≤ r2.buf.length) ∧
    (∀ (r r2 : Reader) (v : Nat),
      r.read_u8 = some (v, r2) → r.pos ≤ r.buf.length → r2.pos ≤ r2.buf.length) ∧
    (∀ (r r2 : Reader) (v : Nat),
      r.read_u16 = some (v, r2) → r.pos ≤ r.buf.length → r2.pos ≤ r2.buf.length) ∧
    (∀ (r r2 : Reader) (v : Nat),
      r.read_u32 = some (v, r2) → r.pos ≤ r.buf.length → r2.pos ≤ r2.buf.length) ∧
    (∀ (r r2 : Reader) (v : Nat),
      r.read_u64 = some (v, r2) → r.pos ≤ r.buf.length → r2.pos ≤ r2.buf.length) ∧
    (∀ (r r2 : Reader) (v : Nat),
      r.read_u128 = some (v, r2) → r.pos ≤ r.buf.length → r2.pos ≤ r2.buf.length) ∧
    (∀ (r r2 : Reader) (p : Nat), r.seek p = some r2 → r2.pos ≤ r2.buf.length) ∧
    (∀ r : Reader, r.pos ≤ r.buf.length → r.pos + r.remaining = r.buf.length) := by
  have hslice : ∀ (r r2 : Reader) (len : Nat) (s : List Nat),
      r.read_slice len = some (s, r2) → r.pos ≤ r.buf.length → r2.pos ≤ r2.buf.length := by
    intro r r2 len s h hinv
    unfold Reader.read_slice Reader.remaining at h
    split at h
    · exact absurd h (by simp)
    · simp only [Option.some.injEq, Prod.mk.injEq] at h
      obtain ⟨-, rfl⟩ := h
      show r.pos + len ≤ r.buf.length
      omega
  have hmap : ∀ (r r2 : Reader) (k v : Nat),
      (r.read_slice k).map (fun p => (fromLE p.1, p.2)) = some (v, r2) →
      r.pos ≤ r.buf.length → r2.pos ≤ r2.buf.length := by
    intro r r2 k v h hinv
    rcases hq : r.read_slice k with _ | p
    · rw [hq] at h; exact absurd h (by simp)
    · rw [hq] at h
      simp only [Option.map_some', Option.some.injEq, Prod.mk.injEq] at h
      obtain ⟨-, rfl⟩ := h
      exact hslice r p.2 k p.1 (by rw [hq]) hinv
  refine ⟨fun buf => by simp [Reader.new], hslice,
    fun r r2 v h => hmap r r2 1 v h,
    fun r r2 v h => hmap r r2 2 v h,
    fun r r2 v h => hmap r r2 4 v h,
    fun r r2 v h => hmap r r2 8 v h,
    fun r r2 v h => hmap r r2 16 v h,
    ?_, fun r hinv => by unfold Reader.remaining; omega⟩
  intro r r2 p h
  unfold Reader.seek at h
  split at h
  · exact absurd h (by simp)
  · simp only [Option.some.injEq] at h
    subst h
    show p ≤ r.buf.length
    omega

/-- C10 witness: the invariant facts at a concrete three-byte reader. -/
theorem reader_pos_invariant_witness :
    (Reader.new [1, 2, 3]).pos ≤ (Reader.new [1, 2, 3]).buf.length ∧
    ({ buf := [1, 2, 3], pos := 3 } : Reader).pos ≤
      ({ buf := [1, 2, 3], pos := 3 } : Reader).buf.length ∧
    ({ buf := [1, 2, 3], pos := 2 } : Reader).pos ≤
      ({ buf := [1, 2, 3], pos := 2 } : Reader).buf.length ∧
    ({ buf := [1, 2, 3], pos := 1 } : Reader).pos +
      ({ buf := [1, 2, 3], pos := 1 } : Reader).remaining =
      ({ buf := [1, 2, 3], pos := 1 } : Reader).buf.length :=
  ⟨reader_pos_invariant.1 [1, 2, 3],
   reader_pos_invariant.2.1 { buf := [1, 2, 3], pos := 1 } { buf := [1, 2, 3], pos := 3 }
     2 [2, 3] (by decide) (by decide),
   reader_pos_invariant.2.2.1 { buf := [1, 2, 3], pos := 1 } { buf := [1, 2, 3], pos := 2 }
     2 (by decide) (by decide),
   reader_pos_invariant.2.2.2.2.2.2.2.2 { buf := [1, 2, 3], pos := 1 } (by decide)⟩

/-- C5: for an event packet with event code 0x0E, `HCIEvent::from_packet`
returns a `CommandCompleteEvent` whose `num_hci_command_packets` is
parameter byte 0, whose `command_opcode` is the little-endian `u16` at
parameter bytes 1..3, and whose `return_parameters` is exactly parameter
bytes 3..len, when `len ≥ 3`; for `len < 3` the wrapping length
subtraction makes the slice read fail and the function returns the
no-value signal. The hypotheses are the representation invariants of
`HCIEventPacket`: a 255-byte parameter array and `len ≤ 255` (its
constructor panics on anything longer). -/
theorem command_complete_decode (len : Nat) (params : List Nat)
    (hp : params.length = 255) (hl : len ≤ 255) :
    (3 ≤ len →
      Event.HCIEvent.from_packet ⟨0x0E, len, params⟩ =
        .ok (some (.commandComplete
          ⟨params.getD 0 0, params.getD 1 0 + 256 * params.getD 2 0,
            (params.drop 3).take (len - 3)⟩))) ∧
    (len < 3 →
      Event.HCIEvent.from_packet ⟨0x0E, len, params⟩ = .ok none) := by
  rcases params with _ | ⟨p0, params⟩
  · simp at hp
  rcases params with _ | ⟨p1, params⟩
  · simp at hp
  rcases params with _ | ⟨p2, rest⟩
  · simp at hp
  simp only [List.length_cons] at hp
  have h0 : Reader.read_u8 { buf := p0 :: p1 :: p2 :: rest, pos := 0 } =
      some (p0, { buf := p0 :: p1 :: p2 :: rest, pos := 1 }) := by
    simpa using read_u8_cons [] (p1 :: p2 :: rest) p0
  have h1 : Reader.read_u16 { buf := p0 :: p1 :: p2 :: rest, pos := 1 } =
      some (p1 + 256 * p2, { buf := p0 :: p1 :: p2 :: rest, pos := 3 }) := by
    simpa using read_u16_cons [p0] rest p1 p2
  have hev : Event.HCIEventCode.fromU8 0x0E = some Event.HCIEventCode.commandComplete := by
    decide
  constructor
  · intro h3
    have hw : wsub len 3 = len - 3 := wsub_of_le len 3 h3 (by omega)
    have hs : Reader.read_slice { buf := p0 :: p1 :: p2 :: rest, pos := 3 } (len - 3) =
        some (rest.take (len - 3),
          { buf := p0 :: p1 :: p2 :: rest, pos := 3 + (len - 3) }) := by
      have := read_slice_ok { buf := p0 :: p1 :: p2 :: rest, pos := 3 } (len - 3)
        (by simp only [List.length_cons]; omega)
      simpa using this
    unfold Event.HCIEvent.from_packet
    rw [hev]
    show Event.HCIEvent.commandCompleteArm { buf := p0 :: p1 :: p2 :: rest, pos := 0 } len = _
    unfold Event.HCIEvent.commandCompleteArm
    rw [h0, Option.some_bind]
    show Except.ok (Option.bind
        (Reader.read_u16 { buf := p0 :: p1 :: p2 :: rest, pos := 1 })
        fun opcode_r2 =>
          (Reader.read_slice opcode_r2.2 (wsub len opcode_r2.2.pos)).map fun params_r3 =>
            Event.HCIEvent.commandComplete
              { num_hci_command_packets := p0, command_opcode := opcode_r2.1,
                return_parameters := params_r3.1 }) = _
    rw [h1, Option.some_bind]
    show Except.ok
        ((Reader.read_slice { buf := p0 :: p1 :: p2 :: rest, pos := 3 } (wsub len 3)).map
          fun params_r3 =>
            Event.HCIEvent.commandComplete
              { num_hci_command_packets := p0, command_opcode := p1 + 256 * p2,
                return_parameters := params_r3.1 }) = _
    rw [hw, hs, Option.map_some']
    rfl
  · intro hlt
    have hs : Reader.read_slice { buf := p0 :: p1 :: p2 :: rest, pos := 3 }
        (wsub len 3) = none := by
      rw [wsub_of_gt len 3 hlt (by norm_num)]
      unfold Reader.read_slice
      rw [if_pos]
      unfold Reader.remaining
      simp only [List.length_cons]
      omega
    unfold Event.HCIEvent.from_packet
    rw [hev]
    show Event.HCIEvent.commandCompleteArm { buf := p0 :: p1 :: p2 :: rest, pos := 0 } len = _
    unfold Event.HCIEvent.commandCompleteArm
    rw [h0, Option.some_bind]
    show Except.ok (Option.bind
        (Reader.read_u16 { buf := p0 :: p1 :: p2 :: rest, pos := 1 })
        fun opcode_r2 =>
          (Reader.read_slice opcode_r2.2 (wsub len opcode_r2.2.pos)).map fun params_r3 =>
            Event.HCIEvent.commandComplete
              { num_hci_command_packets := p0, command_opcode := opcode_r2.1,
                return_parameters := params_r3.1 }) = _
    rw [h1, Option.some_bind]
    show Except.ok
        ((Reader.read_slice { buf := p0 :: p1 :: p2 :: rest, pos := 3 } (wsub len 3)).map
          fun params_r3 =>
            Event.HCIEvent.commandComplete
              { num_hci_command_packets := p0, command_opcode := p1 + 256 * p2,
                return_parameters := params_r3.1 }) = _
    rw [hs]
    rfl

set_option maxRecDepth 40000 in
/-- C5 witness: a concrete 0x0E packet with `len = 4` decodes to the
expected fields, and one with `len = 2` yields the no-value signal. -/
theorem command_complete_decode_witness :
    Event.HCIEvent.from_packet ⟨0x0E, 4, [7, 0x34, 0x12, 9] ++ List.replicate 251 0⟩ =
      .ok (some (.commandComplete ⟨7, 0x1234, [9]⟩)) ∧
    Event.HCIEvent.from_packet ⟨0x0E, 2, List.replicate 255 0⟩ = .ok none := by
  constructor
  · have h := (command_complete_decode 4 ([7, 0x34, 0x12, 9] ++ List.replicate 251 0)
      (by decide) (by norm_num)).1 (by norm_num)
    rw [h]
    decide
  · exact (command_complete_decode 2 (List.replicate 255 0)
      (by decide) (by norm_num)).2 (by norm_num)

set_option maxHeartbeats 1600000 in
/-- C6: with an output buffer of sufficient length (one byte beyond the
encoding, as the writer bound check demands), `HCICommand::write_into`
writes exactly `[0x01, 0x03, 0x0C, 0x00]` for `Reset` and
`[0x01, 0x0C, 0x20, 0x02, 0x01, 0x01]` for
`ScanEnable { scan_enable: 1, filter_duplicates: 1 }`, returning byte
counts 4 and 6; bytes beyond the encoding are untouched. -/
theorem reset_scan_enable_encoding (buf : List Nat) :
    (5 ≤ buf.length →
      HCICommand.write_into .reset buf = some (4, [1, 3, 12, 0] ++ buf.drop 4)) ∧
    (7 ≤ buf.length →
      HCICommand.write_into (.scanEnable { scan_enable := 1, filter_duplicates := 1 }) buf =
        some (6, [1, 12, 32, 2, 1, 1] ++ buf.drop 6)) := by
  constructor
  · intro h
    rcases buf with _ | ⟨b0, buf⟩
    · simp at h
    rcases buf with _ | ⟨b1, buf⟩
    · simp at h
    rcases buf with _ | ⟨b2, buf⟩
    · simp at h
    rcases buf with _ | ⟨b3, buf⟩
    · simp at h
    rcases buf with _ | ⟨b4, rest⟩
    · simp at h
    simp only [List.length_cons] at h
    have hop : (3 ||| 3 <<< 10 : Nat) = 3075 := by decide
    simp only [HCICommand.write_into, HCI_COMMAND_PACKET_TYPE, opcode, OCF_RESET,
      OGF_CONTROL_AND_BASEBAND_COMMAND, Writer.new, Writer.write_u8, Writer.write_u16,
      Writer.write_slice, toLE, listSetRange, hop, Prod.snd, List.length_cons,
      List.length_append, List.take, List.drop, List.length_nil, Nat.reduceMod,
      Nat.reduceDiv, Nat.reduceAdd, List.nil_append, List.cons_append, List.append_nil]
    split_ifs <;> simp only [Prod.snd, List.length_cons] at * <;> first | rfl | omega
  · intro h
    rcases buf with _ | ⟨b0, buf⟩
    · simp at h
    rcases buf with _ | ⟨b1, buf⟩
    · simp at h
    rcases buf with _ | ⟨b2, buf⟩
    · simp at h
    rcases buf with _ | ⟨b3, buf⟩
    · simp at h
    rcases buf with _ | ⟨b4, buf⟩
    · simp at h
    rcases buf with _ | ⟨b5, buf⟩
    · simp at h
    rcases buf with _ | ⟨b6, rest⟩
    · simp at h
    simp only [List.length_cons] at h
    have hop : (12 ||| 8 <<< 10 : Nat) = 8204 := by decide
    simp only [HCICommand.write_into, HCI_COMMAND_PACKET_TYPE, opcode, OCF_SET_SCAN_ENABLE,
      OGF_LE_CONTROLLER_COMMAND, ScanEnableCommand.size, Writer.new, Writer.write_u8,
      Writer.write_u16, Writer.write_slice, toLE, listSetRange, hop, Prod.snd,
      List.length_cons, List.length_append, List.take, List.drop, List.length_nil,
      Nat.reduceMod, Nat.reduceDiv, Nat.reduceAdd, List.nil_append, List.cons_append,
      List.append_nil]
    split_ifs <;> simp only [Prod.snd, List.length_cons] at * <;> first | rfl | omega

set_option maxRecDepth 8000 in
/-- C6 witness: the two encodings on concrete zero-filled buffers. -/
theorem reset_scan_enable_encoding_witness :
    HCICommand.write_into .reset (List.replicate 5 0) = some (4, [1, 3, 12, 0, 0]) ∧
    HCICommand.write_into (.scanEnable { scan_enable := 1, filter_duplicates := 1 })
      (List.replicate 7 0) = some (6, [1, 12, 32, 2, 1, 1, 0]) := by
  constructor
  · have h := (reset_scan_enable_encoding (List.replicate 5 0)).1 (by decide)
    rw [h]
    rfl
  · have h := (reset_scan_enable_encoding (List.replicate 7 0)).2 (by decide)
    rw [h]
    rfl

/-- Helper: one well-formed wire record, starting at `pre.length` inside a
larger buffer, is consumed by `nextAux` in full, producing its report. -/
theorem nextAux_encode (et aty a0 a1 a2 a3 a4 a5 rs : Nat) (ad pre rest : List Nat) :
    Event.AdvertisingReportIterator.nextAux
      { buf := pre ++ et :: aty :: a0 :: a1 :: a2 :: a3 :: a4 :: a5 ::
          ad.length :: (ad ++ rs :: rest), pos := pre.length } =
    (some { event_type := et, address_type := aty, address := [a0, a1, a2, a3, a4, a5],
            data := { reader := Reader.new ad }, rssi := asI8 rs },
     { buf := pre ++ et :: aty :: a0 :: a1 :: a2 :: a3 :: a4 :: a5 ::
          ad.length :: (ad ++ rs :: rest), pos := pre.length + 10 + ad.length }) := by
  have q1 := read_u8_cons pre
    (aty :: a0 :: a1 :: a2 :: a3 :: a4 :: a5 :: ad.length :: (ad ++ rs :: rest)) et
  have q2 := read_u8_cons (pre ++ [et])
    (a0 :: a1 :: a2 :: a3 :: a4 :: a5 :: ad.length :: (ad ++ rs :: rest)) aty
  have q3 := read_slice_pre (pre ++ [et, aty]) [a0, a1, a2, a3, a4, a5]
    (ad.length :: (ad ++ rs :: rest)) 6 (by simp)
  have q4 := read_u8_cons (pre ++ [et, aty, a0, a1, a2, a3, a4, a5])
    (ad ++ rs :: rest) ad.length
  have q5 := read_slice_pre (pre ++ [et, aty, a0, a1, a2, a3, a4, a5, ad.length])
    ad (rs :: rest) ad.length rfl
  have q6 := read_u8_cons (pre ++ [et, aty, a0, a1, a2, a3, a4, a5, ad.length] ++ ad)
    rest rs
  simp only [List.cons_append, List.nil_append, List.append_assoc, List.length_append,
    List.length_cons, List.length_nil, Nat.add_assoc, Nat.add_comm, Nat.add_left_comm, Nat.reduceAdd,
    Nat.zero_add, Nat.add_zero] at q1 q2 q3 q4 q5 q6
  unfold Event.AdvertisingReportIterator.nextAux
  simp only [q1, q2, q3, q4, q5, q6, Option.elim_some, Prod.fst, Prod.snd,
    Nat.add_assoc, Nat.add_comm, Nat.add_left_comm, Nat.reduceAdd]

/-- Helper: `expectedReports` preserves length. -/
theorem expectedReports_length (recs : List RawAdvReport) :
    (expectedReports recs).length = recs.length := by
  induction recs with
  | nil => rfl
  | cons r rs ih => simp [expectedReports, ih]

/-- Helper: `AdvertisingReportIterator.next` on a well-formed record. -/
theorem next_encode (nr et aty a0 a1 a2 a3 a4 a5 rs : Nat) (ad pre rest : List Nat) :
    Event.AdvertisingReportIterator.next
      { num_reports := nr,
        reader := { buf := pre ++ et :: aty :: a0 :: a1 :: a2 :: a3 :: a4 :: a5 ::
          ad.length :: (ad ++ rs :: rest), pos := pre.length } } =
    (some { event_type := et, address_type := aty, address := [a0, a1, a2, a3, a4, a5],
            data := { reader := Reader.new ad }, rssi := asI8 rs },
     { num_reports := nr,
       reader := { buf := pre ++ et :: aty :: a0 :: a1 :: a2 :: a3 :: a4 :: a5 ::
          ad.length :: (ad ++ rs :: rest), pos := pre.length + 10 + ad.length } }) := by
  unfold Event.AdvertisingReportIterator.next
  rw [if_neg]
  · simp only [nextAux_encode, Prod.fst, Prod.snd]
  · unfold Reader.remaining
    simp only [List.length_append, List.length_cons]
    omega

/-- Helper: over the concatenation of well-formed records the iterator
yields exactly the expected reports and ends with the cursor at the end of
the buffer. -/
theorem takeReports_encode (recs : List RawAdvReport) : ∀ (pre : List Nat) (nr : Nat),
    (∀ r ∈ recs, r.wf) →
    takeReports recs.length ⟨nr, ⟨pre ++ encodeReports recs, pre.length⟩⟩ =
    (expectedReports recs,
     ⟨nr, ⟨pre ++ encodeReports recs, pre.length + (encodeReports recs).length⟩⟩) := by
  induction recs with
  | nil =>
    intro pre nr h
    simp [takeReports, encodeReports, expectedReports]
  | cons r tl ih =>
    intro pre nr h
    obtain ⟨haddr, hadlen⟩ := h r (List.mem_cons_self _ _)
    obtain ⟨et, aty, addr, ad, rs⟩ := r
    simp only [RawAdvReport.wf, RawAdvReport.address] at haddr
    rcases addr with _ | ⟨a0, addr⟩
    · simp at haddr
    rcases addr with _ | ⟨a1, addr⟩
    · simp at haddr
    rcases addr with _ | ⟨a2, addr⟩
    · simp at haddr
    rcases addr with _ | ⟨a3, addr⟩
    · simp at haddr
    rcases addr with _ | ⟨a4, addr⟩
    · simp at haddr
    rcases addr with _ | ⟨a5, addr⟩
    · simp at haddr
    rcases addr with _ | ⟨a6, addr⟩
    swap
    · simp at haddr
    have ih2 := ih (pre ++ RawAdvReport.encode ⟨et, aty, [a0, a1, a2, a3, a4, a5], ad, rs⟩)
      nr (fun q hq => h q (List.mem_cons_of_mem _ hq))
    simp only [List.length_cons, encodeReports, expectedReports, RawAdvReport.encode,
      RawAdvReport.event_type, RawAdvReport.address_type, RawAdvReport.address,
      RawAdvReport.ad, RawAdvReport.rssi, List.cons_append, List.nil_append,
      List.append_assoc, List.length_append, List.length_nil, Nat.add_assoc,
      Nat.add_comm, Nat.add_left_comm, Nat.reduceAdd, Nat.zero_add, Nat.add_zero] at ih2 ⊢
    simp only [takeReports, next_encode, Prod.fst, Prod.snd, Nat.add_assoc, Nat.add_comm,
      Nat.add_left_comm, Nat.reduceAdd]
    rw [ih2]

/-- C9: for every list of well-formed advertising report records (1-byte
event type, 1-byte address type, 6-byte address, 1-byte AD length, the AD
bytes, 1-byte RSSI) concatenated with no trailing bytes, iterating
`AdvertisingReportIterator::next` yields exactly one element per record
and then the no-more-elements signal. -/
theorem advertising_report_cardinality (recs : List RawAdvReport) (h : ∀ r ∈ recs, r.wf) :
    (takeReports recs.length
      ⟨recs.length, Reader.new (encodeReports recs)⟩).1.length = recs.length ∧
    (Event.AdvertisingReportIterator.next
      (takeReports recs.length ⟨recs.length, Reader.new (encodeReports recs)⟩).2).1 =
        none := by
  have ht := takeReports_encode recs [] recs.length h
  simp only [List.nil_append, List.length_nil, Nat.zero_add] at ht
  unfold Reader.new
  rw [ht]
  constructor
  · simp only [Prod.fst]
    exact expectedReports_length recs
  · simp only [Prod.snd]
    unfold Event.AdvertisingReportIterator.next
    rw [if_pos]
    unfold Reader.remaining
    exact Nat.sub_self _

/-- C9 witness: two concrete records (one with a 1-byte AD payload, one
with an empty payload) yield exactly two reports and then `none`. -/
theorem advertising_report_cardinality_witness :
    (takeReports 2
      ⟨2, Reader.new (encodeReports [⟨0, 1, [9, 9, 9, 9, 9, 9], [6], 200⟩,
        ⟨2, 0, [1, 2, 3, 4, 5, 6], [], 100⟩])⟩).1.length = 2 ∧
    (Event.AdvertisingReportIterator.next
      (takeReports 2
        ⟨2, Reader.new (encodeReports [⟨0, 1, [9, 9, 9, 9, 9, 9], [6], 200⟩,
          ⟨2, 0, [1, 2, 3, 4, 5, 6], [], 100⟩])⟩).2).1 = none :=
  advertising_report_cardinality
    [⟨0, 1, [9, 9, 9, 9, 9, 9], [6], 200⟩, ⟨2, 0, [1, 2, 3, 4, 5, 6], [], 100⟩]
    (by decide)
